import Mathlib

/-!
Verification of the meto agent core: permission policy, hooks manager,
tool runner, agent loop and session persistence, shallowly embedded from
the Python sources under `src/meto/agent/`.

Conventions of the embedding:
- Python dict-shaped tool parameters become association lists over `PyVal`.
- OS / subprocess / model-API effects become explicit oracle functions
  carried in environment structures (`PathEnv`, `HookExecEnv`, `ToolEnv`,
  `LoopEnv`); the code translated here is everything around those effects.
- Exceptions become `Except` values; a caught exception corresponds to the
  `.error` branch being consumed at the catch site.
-/

namespace Meto

/-! ### Character-level string primitives

`String.trim`, `String.split`, `String.toLower`, `String.endsWith` and
`String.take` are implemented on byte positions in core Lean and do not
reduce inside the kernel, so the embedding uses equivalent character-list
implementations of the corresponding Python `str` operations. -/

/-- Python `str.strip()` on a character list. -/
def trimChars (l : List Char) : List Char :=
  ((l.dropWhile Char.isWhitespace).reverse.dropWhile Char.isWhitespace).reverse

/-- Python `str.split()` (split on whitespace runs, dropping empty
tokens); `acc` holds the current token reversed. -/
def splitWSAux (acc : List Char) : List Char → List String
  | [] => if acc.isEmpty then [] else [String.mk acc.reverse]
  | c :: rest =>
    if c.isWhitespace then
      if acc.isEmpty then splitWSAux [] rest
      else String.mk acc.reverse :: splitWSAux [] rest
    else splitWSAux (c :: acc) rest

/-- Python `str.split()` for strings. -/
def splitWS (s : String) : List String := splitWSAux [] s.toList

/-- Python `str.lower()` (over the ASCII range used by commands). -/
def lowerStr (s : String) : String := String.mk (s.toList.map Char.toLower)

/-- Python `str.endswith(suffix)`. -/
def endsWithStr (s suffix : String) : Bool :=
  suffix.toList.reverse.isPrefixOf s.toList.reverse

/-! ### Python values and parameter dictionaries -/

/-- A JSON-shaped Python value as it occurs in tool parameter dicts. -/
inductive PyVal where
  | str (s : String)
  | int (n : Int)
  | bool (b : Bool)
  | none
  | list (elems : List PyVal)

/-- Python truthiness (`if not path: ...`) for the values we model. -/
def PyVal.truthy : PyVal → Bool
  | .str s => !s.isEmpty
  | .int n => n != 0
  | .bool b => b
  | .none => false
  | .list xs => !xs.isEmpty

/-- Rough `str()` rendering, used only to build prompt detail strings. -/
def PyVal.render : PyVal → String
  | .str s => s
  | .int n => toString n
  | .bool b => if b then "True" else "False"
  | .none => "None"
  | .list _ => "[...]"

/-- A Python `dict[str, Any]` of tool arguments. -/
abbrev Params := List (String × PyVal)

/-- `d.get(k)` -/
def getParam (args : Params) (key : String) : Option PyVal :=
  (args.find? (fun kv => kv.1 == key)).map (fun kv => kv.2)

/-- `d.get(k, default)` -/
def getParamD (args : Params) (key : String) (dflt : PyVal) : PyVal :=
  (getParam args key).getD dflt

/-! ### Permission policy (`permission_policy.py`) -/

/-- Oracle for `Path(path).expanduser().resolve()` and the resolved
whitelist directories. `resolve` returns the canonical absolute path as a
component list, or `none` when resolution raises (malformed path, NUL byte,
non-string argument handled separately). `allowedDirs` are the resolved
components of `ExternalPathPermissionCheck.allowed_dirs`. -/
structure PathEnv where
  resolve : String → Option (List String)
  allowedDirs : List (List String)

/-- The three policy variants registered in `PERMISSION_REQUIRED`. -/
inductive PermissionCheck where
  | alwaysRequire (detailArg : String)
  | neverRequire
  | externalPathCheck

/-- `ExternalPathPermissionCheck.is_required`: falsy/absent path → `False`;
`Path(path)` on a non-string raises inside the `try` → fail closed; a
resolved path is allowed iff some whitelisted directory is a component
prefix of it (`Path.relative_to` succeeds); resolution failure → fail
closed. -/
def externalPathIsRequired (env : PathEnv) (args : Params) : Bool :=
  match getParam args "path" with
  | Option.none => false
  | some v =>
    if !v.truthy then false
    else
      match v with
      | .str s =>
        match env.resolve s with
        | Option.none => true
        | some comps => !(env.allowedDirs.any (fun d => d.isPrefixOf comps))
      | _ => true

/-- `PermissionCheck.is_required` for each variant. -/
def PermissionCheck.isRequired (env : PathEnv) (c : PermissionCheck) (args : Params) : Bool :=
  match c with
  | .alwaysRequire _ => true
  | .neverRequire => false
  | .externalPathCheck => externalPathIsRequired env args

/-- `PermissionCheck.prompt_detail` for each variant. -/
def PermissionCheck.promptDetail (c : PermissionCheck) (args : Params) : String :=
  match c with
  | .alwaysRequire detailArg => ((getParam args detailArg).getD (.str "")).render
  | .neverRequire => ""
  | .externalPathCheck => ((getParam args "path").getD (.str "")).render

/-- The `PERMISSION_REQUIRED` table from `permission_policy.py`. -/
def PERMISSION_REQUIRED : List (String × PermissionCheck) :=
  [("shell", .alwaysRequire "command"),
   ("list_dir", .neverRequire),
   ("read_file", .externalPathCheck),
   ("write_file", .externalPathCheck),
   ("grep_search", .externalPathCheck),
   ("fetch", .alwaysRequire "url"),
   ("manage_todos", .neverRequire),
   ("run_task", .neverRequire),
   ("ask_user_question", .neverRequire),
   ("load_skill", .neverRequire)]

/-- `PERMISSION_REQUIRED.get(tool_name, None)` -/
def lookupPermission (toolName : String) : Option PermissionCheck :=
  (PERMISSION_REQUIRED.find? (fun kv => kv.1 == toolName)).map (fun kv => kv.2)

/-! ### Hooks (`hooks.py`) -/

/-- Hook exit codes (`hooks.py` lines 29-30). -/
def EXIT_OK : Int := 0

/-- Reserved exit code meaning "block" for `pre_tool_use` hooks. -/
def EXIT_BLOCK : Int := 2

/-- `HookConfig` (pydantic model): name, event, tool filter, command, timeout. -/
structure HookConfig where
  name : String
  event : String
  tools : List String := []
  command : String
  timeout : Nat := 60

/-- `HookResult` dataclass. -/
structure HookResult where
  hook_name : String
  success : Bool
  exit_code : Int
  blocked : Bool := false
  error : Option String := Option.none
  stdout : String := ""
  stderr : String := ""

/-- Outcome of one external process attempt (`subprocess.run`):
normal completion with a return code, `subprocess.TimeoutExpired`, or any
other unexpected exception. -/
inductive ProcOutcome where
  | completed (returncode : Int) (stdout stderr : String)
  | timeout
  | failure (msg : String)

/-- Oracles for the effects of `HooksManager._run_hook`: the result of the
`run_python_script` attempt, availability of a shell runner
(`pick_shell_runner`), and the result of the shell `subprocess.run`. -/
structure HookExecEnv where
  pythonRun : HookConfig → ProcOutcome
  shellRunnerAvailable : Bool
  shellRun : HookConfig → ProcOutcome

/-- `is_python_script` from `hooks.py`: first whitespace token of the
command, lowercased, ends with `.py` and is not a known interpreter name. -/
def is_python_script (command : String) : Bool :=
  if (trimChars command.toList).isEmpty then false
  else
    match splitWS (String.mk (trimChars command.toList)) with
    | [] => false
    | tok :: _ =>
      let ft := lowerStr tok
      endsWithStr ft ".py" &&
        !(["python", "python3", "pypy", "python.exe", "python3.exe"].contains ft)

/-- Classification of a completed hook process (`hooks.py` lines 275-285 and
313-323): `blocked` iff the event is `pre_tool_use` and the exit code is the
reserved block value; `success` iff exit code 0. -/
def classifyCompleted (hook : HookConfig) (event : String) (rc : Int)
    (out err : String) : HookResult :=
  { hook_name := hook.name
    success := rc == EXIT_OK
    exit_code := rc
    blocked := event == "pre_tool_use" && rc == EXIT_BLOCK
    stdout := out
    stderr := err }

/-- The shell-execution path of `_run_hook` (lines 293-342), including the
missing-runner branch and the outer `TimeoutExpired` / `Exception`
handlers, which set `blocked` exactly when the event is `pre_tool_use`. -/
def runHookShellPath (env : HookExecEnv) (hook : HookConfig) (event : String) : HookResult :=
  if !env.shellRunnerAvailable then
    { hook_name := hook.name
      success := false
      exit_code := -1
      blocked := event == "pre_tool_use"
      error := some "No shell runner available" }
  else
    match env.shellRun hook with
    | .completed rc out err => classifyCompleted hook event rc out err
    | .timeout =>
      { hook_name := hook.name
        success := false
        exit_code := -1
        blocked := event == "pre_tool_use"
        error := some ("Timeout after " ++ toString hook.timeout ++ "s") }
    | .failure m =>
      { hook_name := hook.name
        success := false
        exit_code := -1
        blocked := event == "pre_tool_use"
        error := some m }

/-- `HooksManager._run_hook`: Python-script commands are first attempted via
`run_python_script`; any exception there (including a timeout, which is an
`Exception` caught by the inner handler) falls back to shell execution. -/
def runHook (env : HookExecEnv) (hook : HookConfig) (event : String) : HookResult :=
  if is_python_script hook.command then
    match env.pythonRun hook with
    | .completed rc out err => classifyCompleted hook event rc out err
    | .timeout => runHookShellPath env hook event
    | .failure _ => runHookShellPath env hook event
  else runHookShellPath env hook event

/-- Whether the hook execution as a whole ends in the timeout/failure
handlers (the final attempted process times out or fails unexpectedly, or
no shell runner is available). -/
def hookExecFailed (env : HookExecEnv) (hook : HookConfig) : Bool :=
  let shellFailed :=
    if !env.shellRunnerAvailable then true
    else
      match env.shellRun hook with
      | .completed _ _ _ => false
      | .timeout => true
      | .failure _ => true
  if is_python_script hook.command then
    match env.pythonRun hook with
    | .completed _ _ _ => false
    | .timeout => shellFailed
    | .failure _ => shellFailed
  else shellFailed

/-- `HooksManager` holds the configured hook list. -/
structure HooksManager where
  hooks : List HookConfig

/-- `HooksManager.get_hooks_for_event`: hooks for the event (in
configuration order), filtered by tool name when one is given (empty
`tools` list matches every tool). -/
def get_hooks_for_event (m : HooksManager) (event : String)
    (toolName : Option String) : List HookConfig :=
  let hs := m.hooks.filter (fun h => h.event == event)
  match toolName with
  | Option.none => hs
  | some t => hs.filter (fun h => h.tools.isEmpty || h.tools.contains t)

/-- The result-collecting loop of `HooksManager.run_hooks`: for
`pre_tool_use`, stop at the first blocked result. -/
def runHooksList (env : HookExecEnv) (event : String) :
    List HookConfig → List HookResult
  | [] => []
  | h :: rest =>
    let r := runHook env h event
    if event == "pre_tool_use" && r.blocked then [r]
    else r :: runHooksList env event rest

/-- `HooksManager.run_hooks`. -/
def run_hooks (env : HookExecEnv) (m : HooksManager) (event : String)
    (toolName : Option String) : List HookResult :=
  runHooksList env event (get_hooks_for_event m event toolName)

/-! ### Settings (`conf.py` defaults) -/

/-- `settings.MAX_TOOL_OUTPUT_CHARS` default. -/
def MAX_TOOL_OUTPUT_CHARS : Nat := 50000

/-- `settings.SUBAGENT_MAX_TURNS` default. -/
def SUBAGENT_MAX_TURNS : Nat := 25

/-- `settings.MAIN_AGENT_MAX_TURNS` default. -/
def MAIN_AGENT_MAX_TURNS : Nat := 100

/-! ### Agent (`agent.py`) -/

/-- One agent definition from the agent registry (`get_all_agents`):
a prompt and a tool allowlist. -/
structure AgentConfig where
  prompt : String
  tools : List String

/-- Runtime agent object. `allowedTools` is the tool-name list obtained
from `get_tools_for_agent` (for `"*"` this is the full tool list), so
`has_tool` is plain membership. -/
structure Agent where
  name : String
  prompt : String
  allowedTools : List String
  maxTurns : Nat
  run_hooks : Bool
  yolo_mode : Bool

/-- `Agent.has_tool`. -/
def Agent.hasTool (a : Agent) (toolName : String) : Bool :=
  a.allowedTools.contains toolName

/-- `Agent.subagent` (agent.py lines 60-84): look up the agent config by
name; on success build an isolated agent with a fresh session, the
registry allowlist, the subagent turn budget and hooks disabled; on an
unknown name raise `SubagentError` (modelled as the `.error` branch). -/
def Agent.subagent (registry : List (String × AgentConfig)) (name : String)
    (yoloMode : Bool) : Except String Agent :=
  match (registry.find? (fun kv => kv.1 == name)).map (fun kv => kv.2) with
  | some cfg =>
    .ok { name := name
          prompt := cfg.prompt
          allowedTools := cfg.tools
          maxTurns := SUBAGENT_MAX_TURNS
          run_hooks := false
          yolo_mode := yoloMode }
  | Option.none =>
    .error ("Unknown agent type " ++ name ++ ". Available agents: " ++
      String.intercalate ", " (registry.map (fun kv => kv.1)))

/-! ### Tool runner (`tool_runner.py`) -/

/-- `_truncate`. -/
def truncateText (text : String) (limit : Nat) : String :=
  if text.toList.length ≤ limit then text
  else String.mk (text.toList.take limit) ++ "\n... (truncated to " ++ toString limit ++ " chars)"

/-- Positional/keyword parameter names accepted by `Agent.subagent`
(agent.py line 61: `def subagent(cls, name, yolo_mode=False)`), without
`cls`. -/
def subagentParamNames : List String := ["name", "yolo_mode"]

/-- Keyword-argument names used at the `_execute_task` call site
(tool_runner.py line 337:
`Agent.subagent(agent_name, plan_mode=plan_mode, yolo_mode=yolo_mode)`). -/
def subagentCallKeywords : List String := ["plan_mode", "yolo_mode"]

/-- Python call binding succeeds only when every keyword argument names a
declared parameter; otherwise the call raises `TypeError` before the
callee body runs. -/
def kwargsBind (paramNames keywords : List String) : Bool :=
  keywords.all (fun k => paramNames.contains k)

/-- Result of `_execute_task`, together with whether a subagent loop was
actually entered (`run_agent_loop` reached). -/
structure TaskOutcome where
  output : String
  subagentRan : Bool

/-- Oracle for the effectful parts of `_execute_task` once a subagent
exists: the joined output of `run_agent_loop(prompt, agent)`, or the
exception it raised. -/
abbrev SubagentLoopOracle := Agent → String → Except String String

/-- `_execute_task` (tool_runner.py lines 324-342). The body runs inside
`try/except Exception`; the `Agent.subagent(...)` call itself raises
`TypeError` whenever its keyword arguments do not bind (which is the case
for the `plan_mode=` keyword in this source), and that exception is caught
and stringified like every other. -/
def executeTask (registry : List (String × AgentConfig))
    (subLoop : SubagentLoopOracle) (prompt agentName : String)
    (yoloMode : Bool) : TaskOutcome :=
  if kwargsBind subagentParamNames subagentCallKeywords then
    match Agent.subagent registry agentName yoloMode with
    | .error e => { output := "(subagent error: " ++ e ++ ")", subagentRan := false }
    | .ok agent =>
      match subLoop agent prompt with
      | .error e => { output := "(subagent error: " ++ e ++ ")", subagentRan := true }
      | .ok out =>
        { output := truncateText (if out.isEmpty then "(subagent returned no output)" else out)
            MAX_TOOL_OUTPUT_CHARS
          subagentRan := true }
  else
    { output := "(subagent error: subagent() got an unexpected keyword argument plan_mode)"
      subagentRan := false }

/-- Oracles for the effectful tool handlers dispatched by `run_tool`, and
for `_prompt_permission`. A handler oracle returning `.error e` models an
exception escaping the handler into the `try` block of `run_tool`. -/
structure ToolEnv where
  promptAnswer : String → String → Bool
  pathEnv : PathEnv
  shellH : PyVal → Except String String
  listDirH : PyVal → PyVal → PyVal → Except String String
  readFileH : PyVal → Except String String
  writeFileH : PyVal → PyVal → Except String String
  grepSearchH : PyVal → PyVal → PyVal → Except String String
  fetchH : PyVal → PyVal → Except String String
  manageTodosH : PyVal → Except String String
  askUserH : PyVal → Except String String
  loadSkillH : PyVal → Except String String
  registry : List (String × AgentConfig)
  subLoop : SubagentLoopOracle

/-- The tool names handled by the dispatch chain in `run_tool`
(tool_runner.py lines 422-469). -/
def dispatchNames : List String :=
  ["shell", "list_dir", "read_file", "write_file", "grep_search", "fetch",
   "manage_todos", "run_task", "ask_user_question", "load_skill"]

/-- The `try` block of `run_tool`: dispatch on the tool name, extract
parameters with their Python defaults, call the handler. Returns the
handler answer (`.error` = exception reaching the outer `except`) paired
with whether a handler was actually invoked (the unknown-tool and
missing-session/missing-loader branches produce their string without
running any handler). -/
def dispatchTool (env : ToolEnv) (toolName : String) (parameters : Params)
    (sessionAvail skillLoaderAvail : Bool) (yoloMode : Bool) :
    Except String String × Bool :=
  if toolName == "shell" then
    (env.shellH (getParamD parameters "command" (.str "")), true)
  else if toolName == "list_dir" then
    (env.listDirH (getParamD parameters "path" (.str "."))
      (getParamD parameters "recursive" (.bool false))
      (getParamD parameters "include_hidden" (.bool false)), true)
  else if toolName == "read_file" then
    (env.readFileH (getParamD parameters "path" (.str "")), true)
  else if toolName == "write_file" then
    (env.writeFileH (getParamD parameters "path" (.str ""))
      (getParamD parameters "content" (.str "")), true)
  else if toolName == "grep_search" then
    (env.grepSearchH (getParamD parameters "pattern" (.str ""))
      (getParamD parameters "path" (.str "."))
      (getParamD parameters "case_insensitive" (.bool false)), true)
  else if toolName == "fetch" then
    (env.fetchH (getParamD parameters "url" (.str ""))
      (getParamD parameters "max_bytes" (.int 100000)), true)
  else if toolName == "manage_todos" then
    if !sessionAvail then (.ok "Error: session required for manage_todos", false)
    else (env.manageTodosH (getParamD parameters "items" (.list [])), true)
  else if toolName == "run_task" then
    (.ok (executeTask env.registry env.subLoop
        (getParamD parameters "prompt" (.str "")).render
        (getParamD parameters "agent_name" (.str "")).render yoloMode).output, true)
  else if toolName == "ask_user_question" then
    (env.askUserH (getParamD parameters "question" (.str "")), true)
  else if toolName == "load_skill" then
    if !skillLoaderAvail then (.ok "Error: skill_loader not available", false)
    else (env.loadSkillH (getParamD parameters "skill_name" (.str "")), true)
  else
    (.ok ("Error: Unknown tool: " ++ toolName), false)

/-- How `run_tool` produced its string. -/
inductive ToolOutcomeKind where
  | cancelled
  | handlerResult
  | caughtException
  deriving DecidableEq

/-- Result of `run_tool` together with bookkeeping derived from its
control flow: the classification of the returned string and whether a
handler ran. -/
structure RunToolResult where
  output : String
  kind : ToolOutcomeKind
  handlerRan : Bool

/-- Helper: wrap the dispatch answer the way the `try/except` of
`run_tool` does (an exception is stringified and returned). -/
def finishDispatch (d : Except String String × Bool) : RunToolResult :=
  match d with
  | (.ok v, ran) => { output := v, kind := .handlerResult, handlerRan := ran }
  | (.error e, ran) => { output := e, kind := .caughtException, handlerRan := ran }

/-- The permission gate at the top of `run_tool` (tool_runner.py lines
409-418): when `yolo_mode` is false, a registered policy is consulted via
`is_required` and, when required, the user is prompted with the rendered
detail; an unregistered tool always prompts with no detail. Returns `true`
exactly when the user was prompted and declined, i.e. when `run_tool`
returns the cancellation sentinel early. -/
def permissionDeclined (env : ToolEnv) (toolName : String) (parameters : Params)
    (yoloMode : Bool) : Bool :=
  if !yoloMode then
    match lookupPermission toolName with
    | some pc =>
      if pc.isRequired env.pathEnv parameters then
        !env.promptAnswer toolName (pc.promptDetail parameters)
      else false
    | Option.none => !env.promptAnswer toolName "(no details available)"
  else false

/-- `run_tool` (tool_runner.py lines 380-480): a declined permission
prompt returns the cancellation sentinel without dispatching; otherwise
the dispatch chain runs inside `try/except` and its answer is returned. -/
def run_tool (env : ToolEnv) (toolName : String) (parameters : Params)
    (sessionAvail skillLoaderAvail : Bool) (yoloMode : Bool) : RunToolResult :=
  if permissionDeclined env toolName parameters yoloMode then
    { output := "(" ++ toolName ++ " cancelled by user)"
      kind := .cancelled
      handlerRan := false }
  else
    finishDispatch (dispatchTool env toolName parameters sessionAvail skillLoaderAvail yoloMode)

/-! ### Agent loop (`agent_loop.py`) -/

/-- The `function` field of a model tool call. `name` is `none` when the
attribute is missing or not a string (`not isinstance(fn_name, str)`);
`argumentsParsed` is `none` when `json.loads` fails or yields a non-dict,
in which case the loop substitutes an empty dict. -/
structure ToolCallFn where
  name : Option String
  argumentsParsed : Option Params

/-- One tool call from a model response. -/
structure ToolCall where
  id : String
  type : String
  function : ToolCallFn

/-- One model response: text content (already defaulted to `""` as in
`msg.content or ""`) and the tool-call list. -/
structure ModelResponse where
  content : String
  tool_calls : List ToolCall

/-- A history message as the loop builds it: the `tool_calls` key of an
assistant message is present (`some`) iff the model returned a non-empty
tool-call list. -/
inductive Msg where
  | user (content : String)
  | assistant (content : String) (tool_calls : Option (List ToolCall))
  | tool (tool_call_id : String) (content : String)

/-- Terminal condition of `run_agent_loop`: normal return, the
`MaxStepsExceededError` raise after the turn budget, or the
`AgentInterrupted` raise from the turn-boundary interrupt check. -/
inductive LoopOutcome where
  | done
  | maxTurnsExceeded (msg : String)
  | interruptedBy (msg : String)
  deriving DecidableEq

/-- Loop bookkeeping: the session history plus counters for `run_tool`
invocations, handlers actually executed inside them, and turns in which
the model was called. -/
structure LoopState where
  history : List Msg
  toolExecs : Nat
  handlersRan : Nat
  turnsStarted : Nat

/-- Environment of the loop: tool-handler oracles, the model client
(indexed by turn number) and the SIGINT flag at the start of each turn. -/
structure LoopEnv where
  toolEnv : ToolEnv
  model : Nat → ModelResponse
  interruptFlag : Nat → Bool
  skillLoaderAvail : Bool

/-- Processing of one entry of `tool_calls` (agent_loop.py lines 109-156):
skip non-function entries; an invalid or disallowed name appends an
`Unknown tool:` tool message without calling `run_tool`; otherwise call
`run_tool` — note the call site passes no `yolo_mode`, so it defaults to
`False` — and append its output keyed by the call id. -/
def processToolCall (env : LoopEnv) (agent : Agent) (s : LoopState)
    (tc : ToolCall) : LoopState :=
  if tc.type != "function" then s
  else
    match tc.function.name with
    | Option.none =>
      { s with history := s.history ++ [.tool tc.id "Unknown tool: None"] }
    | some fnName =>
      if !agent.hasTool fnName then
        { s with history := s.history ++ [.tool tc.id ("Unknown tool: " ++ fnName)] }
      else
        let arguments := tc.function.argumentsParsed.getD []
        let r := run_tool env.toolEnv fnName arguments true env.skillLoaderAvail false
        { s with
          history := s.history ++ [.tool tc.id r.output]
          toolExecs := s.toolExecs + 1
          handlersRan := s.handlersRan + (if r.handlerRan then 1 else 0) }

/-- The `for tc in tool_calls` loop. -/
def processToolCalls (env : LoopEnv) (agent : Agent) (s : LoopState)
    (tcs : List ToolCall) : LoopState :=
  tcs.foldl (processToolCall env agent) s

/-- The `for _turn in range(agent.max_turns)` loop, by remaining fuel.
`t` is the index of the current turn. When the fuel is exhausted the
function raises `MaxStepsExceededError` (agent_loop.py lines 158-159). -/
def runTurns (env : LoopEnv) (agent : Agent) :
    Nat → Nat → LoopState → LoopState × LoopOutcome
  | 0, _, s =>
    (s, .maxTurnsExceeded ("Exceeded maximum of " ++ toString agent.maxTurns ++ " turns"))
  | fuel + 1, t, s =>
    if env.interruptFlag t then (s, .interruptedBy "Agent loop interrupted by user")
    else
      let resp := env.model t
      let tcs := resp.tool_calls
      let s1 : LoopState :=
        { s with
          history := s.history ++
            [.assistant resp.content (if tcs.isEmpty then Option.none else some tcs)]
          turnsStarted := s.turnsStarted + 1 }
      if tcs.isEmpty then (s1, .done)
      else runTurns env agent fuel (t + 1) (processToolCalls env agent s1 tcs)

/-- `run_agent_loop(prompt, agent)` from `agent_loop.py`: empty prompts
return immediately; otherwise the user message is appended and the turn
loop runs with budget `agent.max_turns` over the session history `h0`. -/
def run_agent_loop (env : LoopEnv) (agent : Agent) (prompt : String)
    (h0 : List Msg) : LoopState × LoopOutcome :=
  if (trimChars prompt.toList).isEmpty then
    ({ history := h0, toolExecs := 0, handlersRan := 0, turnsStarted := 0 }, .done)
  else
    runTurns env agent agent.maxTurns 0
      { history := h0 ++ [.user prompt], toolExecs := 0, handlersRan := 0, turnsStarted := 0 }

/-! ### Session persistence (`session.py`) -/

/-- One line of the JSONL session log, as written by `FileSessionLogger`:
the keys of the JSON object, with `tool_calls` / `tool_call_id` present
only when written. -/
structure LogRecord where
  timestamp : String
  role : String
  content : String
  session_id : String
  tool_calls : Option (List ToolCall)
  tool_call_id : Option String

/-- The `{role, content, tool_calls?, tool_call_id?}` view that
`load_session` reconstructs (and that the loop's history dicts carry). -/
structure MsgView where
  role : String
  content : String
  tool_calls : Option (List ToolCall)
  tool_call_id : Option String

/-- The view of a history message as the loop stores it. -/
def msgView : Msg → MsgView
  | .user c => { role := "user", content := c, tool_calls := Option.none, tool_call_id := Option.none }
  | .assistant c tcs =>
    { role := "assistant", content := c, tool_calls := tcs, tool_call_id := Option.none }
  | .tool id c =>
    { role := "tool", content := c, tool_calls := Option.none, tool_call_id := some id }

/-- What `FileSessionLogger.log_user` / `log_assistant` / `log_tool` write
for a history message. `log_assistant` receives
`assistant_message.get("tool_calls")` and only writes the key when the
value is truthy (`if tool_calls:`), so both a missing key and an empty
list are dropped. -/
def logRecordOfMsg (sid ts : String) : Msg → LogRecord
  | .user c =>
    { timestamp := ts, role := "user", content := c, session_id := sid
      tool_calls := Option.none, tool_call_id := Option.none }
  | .assistant c tcs =>
    { timestamp := ts, role := "assistant", content := c, session_id := sid
      tool_calls :=
        match tcs with
        | some l => if l.isEmpty then Option.none else some l
        | Option.none => Option.none
      tool_call_id := Option.none }
  | .tool id c =>
    { timestamp := ts, role := "tool", content := c, session_id := sid
      tool_calls := Option.none, tool_call_id := some id }

/-- The per-line body of `load_session`: keep `role` and `content`,
restore `tool_calls` and `tool_call_id` exactly when the keys are
present, drop timestamp and session id. -/
def recordView (r : LogRecord) : MsgView :=
  { role := r.role, content := r.content
    tool_calls := r.tool_calls, tool_call_id := r.tool_call_id }

/-- `load_session` (session.py lines 144-171) applied to the parsed JSONL
records. -/
def load_session (records : List LogRecord) : List MsgView :=
  records.map recordView

/-- A message the loop can actually produce: an assistant message never
carries an explicitly empty `tool_calls` list (the key is only set when
the list is non-empty). -/
def msgWF : Msg → Bool
  | .assistant _ (some l) => !l.isEmpty
  | _ => true

/-- Well-formedness of a history. -/
def histWF (h : List Msg) : Bool := h.all msgWF

/-! ### Generic string-containment helper -/

/-- Boolean infix test on character lists. -/
def listInfixOfB (pat : List Char) : List Char → Bool
  | [] => pat.isEmpty
  | c :: rest => (pat.isPrefixOf (c :: rest)) || listInfixOfB pat rest

/-- `pat in s` for strings. -/
def containsStr (s pat : String) : Bool := listInfixOfB pat.toList s.toList

theorem listInfixOfB_of_isPrefixOf (pat : List Char) :
    ∀ l : List Char, pat.isPrefixOf l = true → listInfixOfB pat l = true := by
  intro l h
  cases l with
  | nil =>
    cases pat with
    | nil => rfl
    | cons p ps => simp [List.isPrefixOf] at h
  | cons c rest => simp [listInfixOfB, h]

/-- `isPrefixOf` is stable under extending the larger list on the right. -/
theorem isPrefixOf_extend (pat : List Char) :
    ∀ (l l2 : List Char), pat.isPrefixOf l = true → pat.isPrefixOf (l ++ l2) = true := by
  induction pat with
  | nil => intro l l2 _; simp [List.isPrefixOf]
  | cons p ps ih =>
    intro l l2 h
    cases l with
    | nil => simp [List.isPrefixOf] at h
    | cons a rest =>
      rw [List.cons_append]
      rw [List.isPrefixOf] at h ⊢
      rw [Bool.and_eq_true] at h ⊢
      exact ⟨h.1, ih rest l2 h.2⟩

/-! ## Theorems -/

/-- C10: when the `path` key is absent from the argument map, or its value
is falsy (empty string, `None`, `False`, `0`, empty list),
`ExternalPathPermissionCheck.is_required` returns `False` before any path
resolution is attempted — permission is not required even though no path
was validated. -/
theorem externalPathCheck_fail_open_on_missing_or_falsy_path
    (env : PathEnv) (args : Params)
    (h : getParam args "path" = Option.none ∨
      ∃ v, getParam args "path" = some v ∧ v.truthy = false) :
    externalPathIsRequired env args = false := by
  unfold externalPathIsRequired
  rcases h with h | ⟨v, hv, ht⟩
  · rw [h]
  · rw [hv]
    simp [ht]

/-- Witness for C10 at a concrete argument map with an empty `path`. -/
theorem externalPathCheck_fail_open_witness :
    externalPathIsRequired ⟨fun _ => Option.none, []⟩ [("path", .str "")] = false :=
  externalPathCheck_fail_open_on_missing_or_falsy_path _ _
    (Or.inr ⟨.str "", rfl, rfl⟩)

/-- C5: for an argument map carrying a non-empty `path` string, the
`ExternalPathCheck` policy does not require permission when the resolved
path lies inside one of the whitelisted directories (some whitelisted
directory is a component prefix of it), requires permission when the
resolved path lies outside all of them, and requires permission (fail
closed) when resolution raises. -/
theorem externalPathCheck_whitelist_decision
    (env : PathEnv) (args : Params) (p : String)
    (hp : getParam args "path" = some (.str p)) (hne : p.isEmpty = false) :
    (∀ comps, env.resolve p = some comps →
      (∃ d ∈ env.allowedDirs, d.isPrefixOf comps = true) →
      externalPathIsRequired env args = false) ∧
    (∀ comps, env.resolve p = some comps →
      (∀ d ∈ env.allowedDirs, d.isPrefixOf comps = false) →
      externalPathIsRequired env args = true) ∧
    (env.resolve p = Option.none → externalPathIsRequired env args = true) := by
  unfold externalPathIsRequired
  rw [hp]
  refine ⟨?_, ?_, ?_⟩
  · intro comps hres hin
    have hany : (env.allowedDirs.any fun d => d.isPrefixOf comps) = true := by
      rw [List.any_eq_true]
      obtain ⟨d, hd, hpre⟩ := hin
      exact ⟨d, hd, hpre⟩
    simp [PyVal.truthy, hne, hres, hany]
  · intro comps hres hall
    have hany : (env.allowedDirs.any fun d => d.isPrefixOf comps) = false := by
      rw [List.any_eq_false]
      intro d hd
      simp [hall d hd]
    simp [PyVal.truthy, hne, hres, hany]
  · intro hres
    simp [PyVal.truthy, hne, hres]

/-- A concrete resolution oracle for the C5 witness: the whitelist is the
single directory `/w`; `/w/a` resolves inside it, `/etc/x` outside it, and
`bad` fails to resolve. -/
def samplePathEnv : PathEnv :=
  { resolve := fun s =>
      if s == "/w/a" then some ["w", "a"]
      else if s == "/etc/x" then some ["etc", "x"]
      else Option.none
    allowedDirs := [["w"]] }

/-- Witness for C5: all three branches evaluated at concrete paths. -/
theorem externalPathCheck_whitelist_decision_witness :
    externalPathIsRequired samplePathEnv [("path", .str "/w/a")] = false ∧
    externalPathIsRequired samplePathEnv [("path", .str "/etc/x")] = true ∧
    externalPathIsRequired samplePathEnv [("path", .str "bad")] = true := by
  refine ⟨?_, ?_, ?_⟩
  · exact (externalPathCheck_whitelist_decision samplePathEnv
        [("path", .str "/w/a")] "/w/a" rfl rfl).1
      ["w", "a"] rfl ⟨["w"], by simp [samplePathEnv], by decide⟩
  · refine (externalPathCheck_whitelist_decision samplePathEnv
        [("path", .str "/etc/x")] "/etc/x" rfl rfl).2.1 ["etc", "x"] rfl ?_
    intro d hd
    simp only [samplePathEnv, List.mem_singleton] at hd
    subst hd
    decide
  · exact (externalPathCheck_whitelist_decision samplePathEnv
      [("path", .str "bad")] "bad" rfl rfl).2.2 rfl

/-- C6: when a hook's execution ends in the timeout / unexpected-failure
handlers of `_run_hook` (its final process attempt times out or fails, or
no shell runner is available), the result is a block exactly for the
`pre_tool_use` event and is additionally marked unsuccessful; for any
other event (`post_tool_use`, `session_start`) the result is never a
block, whatever the process outcome — the failure only yields a logged,
non-fatal `HookResult`. -/
theorem hook_failure_blocks_only_pre_tool_use
    (env : HookExecEnv) (hook : HookConfig) (event : String) :
    (hookExecFailed env hook = true →
      (runHook env hook event).blocked = (event == "pre_tool_use") ∧
      (runHook env hook event).success = false) ∧
    (event ≠ "pre_tool_use" → (runHook env hook event).blocked = false) := by
  constructor
  · intro hfail
    unfold hookExecFailed at hfail
    unfold runHook
    cases hpy : is_python_script hook.command with
    | true =>
      simp only [hpy, if_true] at hfail ⊢
      cases hout : env.pythonRun hook with
      | completed rc out err => simp [hout] at hfail
      | timeout =>
        simp only [hout] at hfail ⊢
        unfold runHookShellPath
        cases hav : env.shellRunnerAvailable with
        | false => simp [hav]
        | true =>
          simp only [hav] at hfail ⊢
          cases hsh : env.shellRun hook with
          | completed rc out err => simp [hsh] at hfail
          | timeout => simp [hsh]
          | failure m => simp [hsh]
      | failure m =>
        simp only [hout] at hfail ⊢
        unfold runHookShellPath
        cases hav : env.shellRunnerAvailable with
        | false => simp [hav]
        | true =>
          simp only [hav] at hfail ⊢
          cases hsh : env.shellRun hook with
          | completed rc out err => simp [hsh] at hfail
          | timeout => simp [hsh]
          | failure m2 => simp [hsh]
    | false =>
      simp only [hpy, if_false, Bool.false_eq_true] at hfail ⊢
      unfold runHookShellPath
      cases hav : env.shellRunnerAvailable with
      | false => simp [hav]
      | true =>
        simp only [hav] at hfail ⊢
        cases hsh : env.shellRun hook with
        | completed rc out err => simp [hsh] at hfail
        | timeout => simp [hsh]
        | failure m => simp [hsh]
  · intro hev
    have hb : (event == "pre_tool_use") = false := by
      simp [hev]
    unfold runHook runHookShellPath classifyCompleted
    cases hpy : is_python_script hook.command with
    | true =>
      cases hout : env.pythonRun hook with
      | completed rc out err => simp [hb]
      | timeout =>
        cases hav : env.shellRunnerAvailable with
        | false => simp [hav, hb]
        | true =>
          cases hsh : env.shellRun hook with
          | completed rc out err => simp [hav, hsh, hb]
          | timeout => simp [hav, hsh, hb]
          | failure m => simp [hav, hsh, hb]
      | failure m =>
        cases hav : env.shellRunnerAvailable with
        | false => simp [hav, hb]
        | true =>
          cases hsh : env.shellRun hook with
          | completed rc out err => simp [hav, hsh, hb]
          | timeout => simp [hav, hsh, hb]
          | failure m2 => simp [hav, hsh, hb]
    | false =>
      cases hav : env.shellRunnerAvailable with
      | false => simp [hav, hb]
      | true =>
        cases hsh : env.shellRun hook with
        | completed rc out err => simp [hav, hsh, hb]
        | timeout => simp [hav, hsh, hb]
        | failure m => simp [hav, hsh, hb]

/-- A hook whose (non-Python) command always times out in the shell
runner, for the C6 witness. -/
def sampleTimeoutHookEnv : HookExecEnv :=
  { pythonRun := fun _ => .failure "unused"
    shellRunnerAvailable := true
    shellRun := fun _ => .timeout }

/-- The hook configuration used by the C6 witness. -/
def sampleHook : HookConfig :=
  { name := "lint", event := "pre_tool_use", tools := [], command := "sleep 999", timeout := 1 }

/-- Witness for C6: a timed-out hook blocks for `pre_tool_use` and does
not block for `post_tool_use`. -/
theorem hook_failure_blocks_only_pre_tool_use_witness :
    (runHook sampleTimeoutHookEnv sampleHook "pre_tool_use").blocked = true ∧
    (runHook sampleTimeoutHookEnv sampleHook "pre_tool_use").success = false ∧
    (runHook sampleTimeoutHookEnv sampleHook "post_tool_use").blocked = false := by
  refine ⟨?_, ?_, ?_⟩
  · have h := (hook_failure_blocks_only_pre_tool_use sampleTimeoutHookEnv sampleHook
      "pre_tool_use").1 (by decide)
    rw [h.1]
    decide
  · exact ((hook_failure_blocks_only_pre_tool_use sampleTimeoutHookEnv sampleHook
      "pre_tool_use").1 (by decide)).2
  · exact (hook_failure_blocks_only_pre_tool_use sampleTimeoutHookEnv sampleHook
      "post_tool_use").2 (by decide)

/-- C2: `run_tool` is a total function into strings — in the embedding its
result is defined for every tool name, parameter map and oracle
environment — and its output is exactly one of: the cancellation sentinel
`"(<tool> cancelled by user)"` produced by a declined permission prompt,
with no handler executed; the value the dispatch chain returned normally;
or the stringified exception the dispatch chain raised and `run_tool`
caught. -/
theorem run_tool_never_raises_trichotomy
    (env : ToolEnv) (toolName : String) (parameters : Params)
    (sessionAvail skillLoaderAvail yoloMode : Bool) :
    (permissionDeclined env toolName parameters yoloMode = true ∧
      (run_tool env toolName parameters sessionAvail skillLoaderAvail yoloMode).output
        = "(" ++ toolName ++ " cancelled by user)" ∧
      (run_tool env toolName parameters sessionAvail skillLoaderAvail yoloMode).kind
        = .cancelled ∧
      (run_tool env toolName parameters sessionAvail skillLoaderAvail yoloMode).handlerRan
        = false) ∨
    ((dispatchTool env toolName parameters sessionAvail skillLoaderAvail yoloMode).1
        = .ok (run_tool env toolName parameters sessionAvail skillLoaderAvail yoloMode).output ∧
      (run_tool env toolName parameters sessionAvail skillLoaderAvail yoloMode).kind
        = .handlerResult ∧
      (run_tool env toolName parameters sessionAvail skillLoaderAvail yoloMode).handlerRan
        = (dispatchTool env toolName parameters sessionAvail skillLoaderAvail yoloMode).2) ∨
    ((dispatchTool env toolName parameters sessionAvail skillLoaderAvail yoloMode).1
        = .error (run_tool env toolName parameters sessionAvail skillLoaderAvail yoloMode).output ∧
      (run_tool env toolName parameters sessionAvail skillLoaderAvail yoloMode).kind
        = .caughtException ∧
      (run_tool env toolName parameters sessionAvail skillLoaderAvail yoloMode).handlerRan
        = (dispatchTool env toolName parameters sessionAvail skillLoaderAvail yoloMode).2) := by
  unfold run_tool
  cases hc : permissionDeclined env toolName parameters yoloMode with
  | true => exact Or.inl ⟨rfl, rfl, rfl, rfl⟩
  | false =>
    rcases hd : dispatchTool env toolName parameters sessionAvail skillLoaderAvail yoloMode
      with ⟨e, ran⟩
    cases e with
    | ok v => exact Or.inr (Or.inl ⟨rfl, rfl, rfl⟩)
    | error msg => exact Or.inr (Or.inr ⟨rfl, rfl, rfl⟩)

/-- If `pat` starts `pre`, then `pre ++ t` contains `pat`. -/
theorem containsStr_append_left (pre t pat : String)
    (h : pat.toList.isPrefixOf pre.toList = true) :
    containsStr (pre ++ t) pat = true := by
  unfold containsStr
  have hd : (pre ++ t).toList = pre.toList ++ t.toList := String.data_append pre t
  rw [hd]
  exact listInfixOfB_of_isPrefixOf _ _ (isPrefixOf_extend _ _ _ h)

/-- C7: `_execute_task` never raises, but in this source it also never
reaches the subagent: the `Agent.subagent(agent_name, plan_mode=...,
yolo_mode=...)` call uses a `plan_mode` keyword that `Agent.subagent` does
not declare, so the call raises `TypeError` inside the `try` block for
every input and `_execute_task` returns the caught failure as a string
containing `"subagent error"` without ever building the fresh-session
subagent or running its loop. -/
theorem executeTask_never_reaches_subagent
    (registry : List (String × AgentConfig)) (subLoop : SubagentLoopOracle)
    (prompt agentName : String) (yoloMode : Bool) :
    (executeTask registry subLoop prompt agentName yoloMode).subagentRan = false ∧
    containsStr (executeTask registry subLoop prompt agentName yoloMode).output
      "subagent error" = true := by
  have hbind : kwargsBind subagentParamNames subagentCallKeywords = false := by decide
  unfold executeTask
  rw [hbind, if_neg (fun h => Bool.noConfusion h)]
  exact ⟨rfl, by decide⟩

/-- Tool-handler oracles for concrete loop runs: every handler succeeds
with a fixed string and the user declines every permission prompt. -/
def decliningToolEnv : ToolEnv :=
  { promptAnswer := fun _ _ => false
    pathEnv := { resolve := fun _ => Option.none, allowedDirs := [] }
    shellH := fun _ => .ok "shell ran"
    listDirH := fun _ _ _ => .ok "listing"
    readFileH := fun _ => .ok "contents"
    writeFileH := fun _ _ => .ok "written"
    grepSearchH := fun _ _ _ => .ok "matches"
    fetchH := fun _ _ => .ok "body"
    manageTodosH := fun _ => .ok "todos"
    askUserH := fun _ => .ok "answer"
    loadSkillH := fun _ => .ok "skill"
    registry := []
    subLoop := fun _ _ => .ok "" }

/-- Same oracles, but the user confirms every permission prompt. -/
def confirmingToolEnv : ToolEnv :=
  { decliningToolEnv with promptAnswer := fun _ _ => true }

/-- A model tool call requesting `shell`. -/
def shellToolCall : ToolCall :=
  { id := "call-1"
    type := "function"
    function := { name := some "shell", argumentsParsed := some [("command", .str "ls")] } }

/-- An agent whose yolo flag is set. -/
def yoloAgent : Agent :=
  { name := "main", prompt := "", allowedTools := ["shell"], maxTurns := 3
    run_hooks := true, yolo_mode := true }

/-- A model that requests one `shell` call on the first turn and stops on
the second. -/
def yoloLoopEnv : LoopEnv :=
  { toolEnv := decliningToolEnv
    model := fun t =>
      if t == 0 then { content := "", tool_calls := [shellToolCall] }
      else { content := "done", tool_calls := [] }
    interruptFlag := fun _ => false
    skillLoaderAvail := true }

/-- C3 (divergence witness): the loop's `run_tool` call site passes no
`yolo_mode`, so it defaults to `False`: even for an agent whose yolo flag
is set, the permission prompt is consulted and a declining user cancels
the tool — no handler runs — while calling `run_tool` directly with
`yolo_mode=True` (the documented intent for yolo agents) skips the prompt
and runs the handler for the same input. -/
theorem yolo_agent_loop_still_prompts :
    yoloAgent.yolo_mode = true ∧
    (run_agent_loop yoloLoopEnv yoloAgent "go" []).1.handlersRan = 0 ∧
    (run_agent_loop yoloLoopEnv yoloAgent "go" []).1.history =
      [.user "go", .assistant "" (some [shellToolCall]),
       .tool "call-1" "(shell cancelled by user)", .assistant "done" Option.none] ∧
    (run_tool decliningToolEnv "shell" [("command", .str "ls")] true true true).handlerRan
      = true ∧
    (run_tool decliningToolEnv "shell" [("command", .str "ls")] true true true).output
      = "shell ran" := by
  exact ⟨rfl, rfl, rfl, rfl, rfl⟩

/-- The hooks file of the C1 run: a hook that exits with the reserved
block code for `list_dir`, followed by a second `pre_tool_use` hook. -/
def blockingHook : HookConfig :=
  { name := "blocker", event := "pre_tool_use", tools := ["list_dir"]
    command := "exit 2", timeout := 60 }

/-- The second configured `pre_tool_use` hook (must never run after a
block). -/
def secondHook : HookConfig :=
  { name := "second", event := "pre_tool_use", tools := [], command := "echo hi", timeout := 60 }

/-- Process oracle under which the blocker hook exits with the reserved
block code and every other command succeeds. -/
def blockingHookEnv : HookExecEnv :=
  { pythonRun := fun _ => .failure "unused"
    shellRunnerAvailable := true
    shellRun := fun h => if h.name == "blocker" then .completed 2 "" "" else .completed 0 "" "" }

/-- The hooks manager loaded from that configuration. -/
def blockingHooksManager : HooksManager :=
  { hooks := [blockingHook, secondHook] }

/-- A model tool call requesting `list_dir` (the tool the blocker hook
names). -/
def listDirToolCall : ToolCall :=
  { id := "call-ld"
    type := "function"
    function := { name := some "list_dir", argumentsParsed := some [] } }

/-- Loop environment whose model requests one `list_dir` call and stops. -/
def hookedLoopEnv : LoopEnv :=
  { toolEnv := decliningToolEnv
    model := fun t =>
      if t == 0 then { content := "", tool_calls := [listDirToolCall] }
      else { content := "", tool_calls := [] }
    interruptFlag := fun _ => false
    skillLoaderAvail := true }

/-- The main agent of the C1 run (hooks nominally enabled). -/
def hookedAgent : Agent :=
  { name := "main", prompt := "", allowedTools := ["list_dir"], maxTurns := 3
    run_hooks := true, yolo_mode := false }

/-- C1 (divergence witness): inside `HooksManager.run_hooks` the claimed
short-circuit does hold — with the blocker first, the result list is
exactly the one blocked result and the second matching hook never
executes — but `run_agent_loop` contains no call to `run_hooks` at all,
so with the very same blocking configuration loaded the loop still runs
the `list_dir` handler (one `run_tool` invocation, one handler
execution). -/
theorem pre_tool_use_block_not_wired_into_loop :
    run_hooks blockingHookEnv blockingHooksManager "pre_tool_use" (some "list_dir")
      = [runHook blockingHookEnv blockingHook "pre_tool_use"] ∧
    (runHook blockingHookEnv blockingHook "pre_tool_use").blocked = true ∧
    (run_agent_loop hookedLoopEnv hookedAgent "go" []).1.toolExecs = 1 ∧
    (run_agent_loop hookedLoopEnv hookedAgent "go" []).1.handlersRan = 1 := by
  exact ⟨rfl, rfl, rfl, rfl⟩

/-- An agent whose allowlist holds only `read_file`. -/
def restrictedAgent : Agent :=
  { name := "sub", prompt := "", allowedTools := ["read_file"], maxTurns := 3
    run_hooks := false, yolo_mode := false }

/-- C8 counterexample: `shell` is outside this agent's allowlist, yet
`run_tool "shell"` (with the permission prompt confirmed) executes the
shell handler and returns its output, which does not contain
`"Unknown tool"` — refuting the claim that for any tool name outside an
agent's allowlist `run_tool` returns an `Unknown tool` message and never
invokes a handler. (`run_tool` is not allowlist-aware; the loop filters
names before ever calling it.) -/
theorem run_tool_ignores_allowlist_counterexample :
    restrictedAgent.hasTool "shell" = false ∧
    (run_tool confirmingToolEnv "shell" [("command", .str "ls")] true true false).handlerRan
      = true ∧
    containsStr
      (run_tool confirmingToolEnv "shell" [("command", .str "ls")] true true false).output
      "Unknown tool" = false := by
  exact ⟨rfl, rfl, by decide⟩

/-- C8 amended: for a function call whose tool name lies outside the
agent's allowlist, the loop itself appends a tool-role message containing
`Unknown tool` keyed by the call id, without invoking `run_tool` or any
handler (all counters unchanged), and processing continues with the
remaining tool calls of the turn; `run_tool` returns an `Unknown tool`
message (with no handler invoked) only for names absent from its dispatch
table, here dispatched with `yolo_mode=True` so the permission gate does
not intervene. -/
theorem loop_unknown_tool_short_circuit
    (env : LoopEnv) (agent : Agent) (s : LoopState) (tc : ToolCall) (fnName : String)
    (htype : tc.type = "function") (hname : tc.function.name = some fnName)
    (hnot : agent.hasTool fnName = false) :
    (processToolCall env agent s tc =
      { s with history := s.history ++ [.tool tc.id ("Unknown tool: " ++ fnName)] }) ∧
    containsStr ("Unknown tool: " ++ fnName) "Unknown tool" = true ∧
    (∀ rest, processToolCalls env agent s (tc :: rest) =
      processToolCalls env agent
        { s with history := s.history ++ [.tool tc.id ("Unknown tool: " ++ fnName)] } rest) ∧
    (∀ (envT : ToolEnv) (params : Params) (sessionAvail skillAvail : Bool),
      fnName ∉ dispatchNames →
        (run_tool envT fnName params sessionAvail skillAvail true).output
          = "Error: Unknown tool: " ++ fnName ∧
        (run_tool envT fnName params sessionAvail skillAvail true).handlerRan = false) := by
  have hstep : processToolCall env agent s tc =
      { s with history := s.history ++ [.tool tc.id ("Unknown tool: " ++ fnName)] } := by
    unfold processToolCall
    rw [htype, hname]
    simp [hnot]
  refine ⟨hstep, ?_, ?_, ?_⟩
  · exact containsStr_append_left "Unknown tool: " fnName "Unknown tool" (by decide)
  · intro rest
    unfold processToolCalls
    rw [List.foldl_cons, hstep]
  · intro envT params sessionAvail skillAvail hnotd
    simp only [dispatchNames, List.mem_cons, List.not_mem_nil, or_false, not_or] at hnotd
    obtain ⟨h1, h2, h3, h4, h5, h6, h7, h8, h9, h10⟩ := hnotd
    unfold run_tool permissionDeclined dispatchTool
    simp [beq_eq_false_iff_ne.mpr h1, beq_eq_false_iff_ne.mpr h2,
      beq_eq_false_iff_ne.mpr h3, beq_eq_false_iff_ne.mpr h4,
      beq_eq_false_iff_ne.mpr h5, beq_eq_false_iff_ne.mpr h6,
      beq_eq_false_iff_ne.mpr h7, beq_eq_false_iff_ne.mpr h8,
      beq_eq_false_iff_ne.mpr h9, beq_eq_false_iff_ne.mpr h10, finishDispatch]

/-- Witness for the amended C8 theorem at a concrete disallowed call. -/
theorem loop_unknown_tool_short_circuit_witness :
    (processToolCall hookedLoopEnv restrictedAgent
        { history := [], toolExecs := 0, handlersRan := 0, turnsStarted := 0 }
        { id := "c8", type := "function"
          function := { name := some "shell", argumentsParsed := some [] } }).history
      = [.tool "c8" "Unknown tool: shell"] ∧
    (run_tool confirmingToolEnv "frobnicate" [] true true true).output
      = "Error: Unknown tool: frobnicate" := by
  have h := loop_unknown_tool_short_circuit hookedLoopEnv restrictedAgent
    { history := [], toolExecs := 0, handlersRan := 0, turnsStarted := 0 }
    { id := "c8", type := "function"
      function := { name := some "shell", argumentsParsed := some [] } }
    "shell" rfl rfl rfl
  have h2 := loop_unknown_tool_short_circuit hookedLoopEnv restrictedAgent
    { history := [], toolExecs := 0, handlersRan := 0, turnsStarted := 0 }
    { id := "c9", type := "function"
      function := { name := some "frobnicate", argumentsParsed := some [] } }
    "frobnicate" rfl rfl rfl
  constructor
  · rw [h.1]
    rfl
  · exact (h2.2.2.2 confirmingToolEnv [] true true (by decide)).1

/-- The state update of one turn before tool processing: append the
assistant message and count the turn. -/
def turnStep (env : LoopEnv) (s : LoopState) (t : Nat) : LoopState :=
  { s with
    history := s.history ++
      [.assistant (env.model t).content
        (if (env.model t).tool_calls.isEmpty then Option.none else some (env.model t).tool_calls)]
    turnsStarted := s.turnsStarted + 1 }

/-- Unfolding equation for one iteration of the turn loop. -/
theorem runTurns_succ (env : LoopEnv) (agent : Agent) (fuel t : Nat) (s : LoopState) :
    runTurns env agent (fuel + 1) t s =
      if env.interruptFlag t then (s, .interruptedBy "Agent loop interrupted by user")
      else if (env.model t).tool_calls.isEmpty then (turnStep env s t, .done)
      else runTurns env agent fuel (t + 1)
        (processToolCalls env agent (turnStep env s t) (env.model t).tool_calls) := rfl

/-- Processing one tool call leaves the turn counter unchanged and
increments `toolExecs` by at most one. -/
theorem processToolCall_counters (env : LoopEnv) (agent : Agent) (s : LoopState)
    (tc : ToolCall) :
    (processToolCall env agent s tc).turnsStarted = s.turnsStarted ∧
    (processToolCall env agent s tc).toolExecs ≤ s.toolExecs + 1 := by
  unfold processToolCall
  split
  · exact ⟨rfl, Nat.le_succ _⟩
  · split
    · exact ⟨rfl, Nat.le_succ _⟩
    · split
      · exact ⟨rfl, Nat.le_succ _⟩
      · exact ⟨rfl, Nat.le_refl _⟩

/-- Processing a turn's tool calls leaves the turn counter unchanged and
adds at most one tool execution per call. -/
theorem processToolCalls_counters (env : LoopEnv) (agent : Agent) :
    ∀ (tcs : List ToolCall) (s : LoopState),
      (processToolCalls env agent s tcs).turnsStarted = s.turnsStarted ∧
      (processToolCalls env agent s tcs).toolExecs ≤ s.toolExecs + tcs.length := by
  intro tcs
  induction tcs with
  | nil => intro s; exact ⟨rfl, Nat.le_refl _⟩
  | cons tc rest ih =>
    intro s
    have h1 := processToolCall_counters env agent s tc
    have h2 := ih (processToolCall env agent s tc)
    have hfold : processToolCalls env agent s (tc :: rest)
        = processToolCalls env agent (processToolCall env agent s tc) rest := rfl
    rw [hfold, List.length_cons]
    obtain ⟨h1a, h1b⟩ := h1
    obtain ⟨h2a, h2b⟩ := h2
    constructor
    · rw [h2a, h1a]
    · omega

/-- When every turn's model response carries exactly one tool call and no
interrupt is pending, the turn loop consumes all its fuel, starting one
turn per fuel unit, executing at most one tool per turn, and ends in the
`MaxStepsExceededError` outcome. -/
theorem runTurns_tool_every_turn (env : LoopEnv) (agent : Agent)
    (hint : ∀ t, env.interruptFlag t = false)
    (hmodel : ∀ t, (env.model t).tool_calls.length = 1) :
    ∀ (fuel t : Nat) (s : LoopState),
      (runTurns env agent fuel t s).1.turnsStarted = s.turnsStarted + fuel ∧
      (runTurns env agent fuel t s).1.toolExecs ≤ s.toolExecs + fuel ∧
      (runTurns env agent fuel t s).2 =
        .maxTurnsExceeded ("Exceeded maximum of " ++ toString agent.maxTurns ++ " turns") := by
  intro fuel
  induction fuel with
  | zero => intro t s; exact ⟨rfl, Nat.le_refl _, rfl⟩
  | succ fuel ih =>
    intro t s
    rw [runTurns_succ, hint t, if_neg (fun hh => Bool.noConfusion hh)]
    obtain ⟨tc, htc⟩ := List.length_eq_one.mp (hmodel t)
    rw [htc]
    rw [if_neg (fun hh => by simp at hh)]
    have hm := ih (t + 1) (processToolCalls env agent (turnStep env s t) [tc])
    have hc := processToolCalls_counters env agent [tc] (turnStep env s t)
    have ht1 : (turnStep env s t).turnsStarted = s.turnsStarted + 1 := rfl
    have ht2 : (turnStep env s t).toolExecs = s.toolExecs := rfl
    obtain ⟨hm1, hm2, hm3⟩ := hm
    obtain ⟨hc1, hc2⟩ := hc
    refine ⟨?_, ?_, hm3⟩
    · rw [hm1, hc1, ht1]
      omega
    · rw [List.length_singleton] at hc2
      rw [ht2] at hc2
      omega

/-- C4: with `max_turns = N`, a non-empty prompt, no pending interrupt,
and a model that requests exactly one tool call on every turn, the loop
performs exactly N turns with at most N `run_tool` executions and then
ends in the `MaxStepsExceededError` terminal outcome (the embedding's
`maxTurnsExceeded`), a constructor distinct from the interruption outcome
`AgentInterrupted` (`interruptedBy`). -/
theorem max_turns_exhaustion (env : LoopEnv) (agent : Agent) (prompt : String)
    (h0 : List Msg)
    (hprompt : (trimChars prompt.toList).isEmpty = false)
    (hint : ∀ t, env.interruptFlag t = false)
    (hmodel : ∀ t, (env.model t).tool_calls.length = 1) :
    (run_agent_loop env agent prompt h0).2 =
      .maxTurnsExceeded ("Exceeded maximum of " ++ toString agent.maxTurns ++ " turns") ∧
    (run_agent_loop env agent prompt h0).1.turnsStarted = agent.maxTurns ∧
    (run_agent_loop env agent prompt h0).1.toolExecs ≤ agent.maxTurns ∧
    (∀ m m2, (LoopOutcome.maxTurnsExceeded m) ≠ (LoopOutcome.interruptedBy m2)) := by
  unfold run_agent_loop
  rw [hprompt, if_neg (fun hh => Bool.noConfusion hh)]
  have h := runTurns_tool_every_turn env agent hint hmodel agent.maxTurns 0
    { history := h0 ++ [.user prompt], toolExecs := 0, handlersRan := 0, turnsStarted := 0 }
  exact ⟨h.2.2, h.1.trans (Nat.zero_add _), le_trans h.2.1 (le_of_eq (Nat.zero_add _)),
    fun m m2 hcon => LoopOutcome.noConfusion hcon⟩

/-- A model that requests a single `list_dir` call on every turn, for the
C4 witness. -/
def alwaysToolLoopEnv : LoopEnv :=
  { toolEnv := confirmingToolEnv
    model := fun _ => { content := "", tool_calls := [listDirToolCall] }
    interruptFlag := fun _ => false
    skillLoaderAvail := true }

/-- An agent with a budget of two turns. -/
def twoTurnAgent : Agent :=
  { name := "main", prompt := "", allowedTools := ["list_dir"], maxTurns := 2
    run_hooks := true, yolo_mode := false }

/-- Witness for C4 at `max_turns = 2`. -/
theorem max_turns_exhaustion_witness :
    (run_agent_loop alwaysToolLoopEnv twoTurnAgent "go" []).2 =
      .maxTurnsExceeded "Exceeded maximum of 2 turns" ∧
    (run_agent_loop alwaysToolLoopEnv twoTurnAgent "go" []).1.turnsStarted = 2 ∧
    (run_agent_loop alwaysToolLoopEnv twoTurnAgent "go" []).1.toolExecs ≤ 2 := by
  have h := max_turns_exhaustion alwaysToolLoopEnv twoTurnAgent "go" [] (by decide)
    (fun t => rfl) (fun t => rfl)
  exact ⟨h.1, h.2.1, h.2.2.1⟩

/-- Logging then reloading one well-formed message reproduces its
`{role, content, tool_calls?, tool_call_id?}` view. -/
theorem recordView_log_msg (sid ts : String) (m : Msg) (hwf : msgWF m = true) :
    recordView (logRecordOfMsg sid ts m) = msgView m := by
  cases m with
  | user c => rfl
  | tool id c => rfl
  | assistant c tcs =>
    cases tcs with
    | none => rfl
    | some l =>
      cases l with
      | nil => simp [msgWF] at hwf
      | cons tc rest => rfl

/-- List version of the per-message round trip. -/
theorem load_session_log_roundtrip (sid ts : String) :
    ∀ h : List Msg, histWF h = true →
      load_session (h.map (logRecordOfMsg sid ts)) = h.map msgView := by
  intro h
  induction h with
  | nil => intro _; rfl
  | cons m rest ih =>
    intro hwf
    rw [List.map_cons, List.map_cons]
    have hall := hwf
    rw [histWF, List.all_cons, Bool.and_eq_true] at hall
    have hstep : load_session ((logRecordOfMsg sid ts m) :: rest.map (logRecordOfMsg sid ts))
        = recordView (logRecordOfMsg sid ts m) :: load_session (rest.map (logRecordOfMsg sid ts)) :=
      rfl
    rw [hstep, recordView_log_msg sid ts m hall.1, ih hall.2]

/-- Appending to a history preserves well-formedness componentwise. -/
theorem histWF_append (a b : List Msg) : histWF (a ++ b) = (histWF a && histWF b) :=
  List.all_append

/-- The assistant message the loop appends is always well formed: the
`tool_calls` key is only set for a non-empty list. -/
theorem assistant_msg_WF (c : String) (l : List ToolCall) :
    msgWF (.assistant c (if l.isEmpty then Option.none else some l)) = true := by
  cases l with
  | nil => rfl
  | cons tc rest => rfl

/-- Processing a tool call only appends well-formed tool messages. -/
theorem processToolCall_WF (env : LoopEnv) (agent : Agent) (s : LoopState) (tc : ToolCall)
    (h : histWF s.history = true) : histWF (processToolCall env agent s tc).history = true := by
  have happ : ∀ (m : Msg), msgWF m = true → histWF (s.history ++ [m]) = true := by
    intro m hm
    rw [histWF_append, h, Bool.true_and]
    simp [histWF, hm]
  unfold processToolCall
  split
  · exact h
  · split
    · exact happ _ rfl
    · split
      · exact happ _ rfl
      · exact happ _ rfl

/-- Processing a turn's tool calls preserves history well-formedness. -/
theorem processToolCalls_WF (env : LoopEnv) (agent : Agent) :
    ∀ (tcs : List ToolCall) (s : LoopState), histWF s.history = true →
      histWF (processToolCalls env agent s tcs).history = true := by
  intro tcs
  induction tcs with
  | nil => intro s h; exact h
  | cons tc rest ih =>
    intro s h
    have hfold : processToolCalls env agent s (tc :: rest)
        = processToolCalls env agent (processToolCall env agent s tc) rest := rfl
    rw [hfold]
    exact ih _ (processToolCall_WF env agent s tc h)

/-- The per-turn state update preserves history well-formedness. -/
theorem turnStep_WF (env : LoopEnv) (s : LoopState) (t : Nat)
    (h : histWF s.history = true) : histWF (turnStep env s t).history = true := by
  have hgoal : (turnStep env s t).history
      = s.history ++
        [.assistant (env.model t).content
          (if (env.model t).tool_calls.isEmpty then Option.none
            else some (env.model t).tool_calls)] := rfl
  rw [hgoal, histWF_append, h, Bool.true_and]
  simp [histWF, assistant_msg_WF]

/-- The turn loop preserves history well-formedness. -/
theorem runTurns_WF (env : LoopEnv) (agent : Agent) :
    ∀ (fuel t : Nat) (s : LoopState), histWF s.history = true →
      histWF (runTurns env agent fuel t s).1.history = true := by
  intro fuel
  induction fuel with
  | zero => intro t s h; exact h
  | succ fuel ih =>
    intro t s h
    rw [runTurns_succ]
    cases hif : env.interruptFlag t with
    | true => simpa using h
    | false =>
      rw [if_neg (fun hh => Bool.noConfusion hh)]
      cases hemp : (env.model t).tool_calls.isEmpty with
      | true => simpa using turnStep_WF env s t h
      | false =>
        rw [if_neg (fun hh => Bool.noConfusion hh)]
        exact ih (t + 1) _ (processToolCalls_WF env agent _ _ (turnStep_WF env s t h))

/-- The whole loop run preserves history well-formedness. -/
theorem run_agent_loop_WF (env : LoopEnv) (agent : Agent) (prompt : String) (h0 : List Msg)
    (h : histWF h0 = true) :
    histWF (run_agent_loop env agent prompt h0).1.history = true := by
  unfold run_agent_loop
  cases hp : (trimChars prompt.toList).isEmpty with
  | true => simpa using h
  | false =>
    rw [if_neg (fun hh => Bool.noConfusion hh)]
    apply runTurns_WF
    rw [histWF_append, h, Bool.true_and]
    rfl

/-- C9: for any history produced by the agent loop (from a well-formed
starting history, e.g. the empty one), writing each message through the
JSONL session logger (`FileSessionLogger.log_user` / `log_assistant` /
`log_tool`, with timestamps and session id attached) and reloading the
file with `load_session` reproduces the same ordered sequence of
`{role, content, tool_calls?, tool_call_id?}` objects — timestamps and
session id excluded. -/
theorem session_history_roundtrip (env : LoopEnv) (agent : Agent) (prompt : String)
    (h0 : List Msg) (sid ts : String) (h0wf : histWF h0 = true) :
    load_session (((run_agent_loop env agent prompt h0).1.history).map (logRecordOfMsg sid ts))
      = ((run_agent_loop env agent prompt h0).1.history).map msgView :=
  load_session_log_roundtrip sid ts _ (run_agent_loop_WF env agent prompt h0 h0wf)

/-- Witness for C9 on a concrete run containing user, assistant (with and
without tool calls) and tool messages. -/
theorem session_history_roundtrip_witness :
    load_session (((run_agent_loop hookedLoopEnv hookedAgent "go" []).1.history).map
        (logRecordOfMsg "sess-1" "2024-01-01T00:00:00Z"))
      = ((run_agent_loop hookedLoopEnv hookedAgent "go" []).1.history).map msgView :=
  session_history_roundtrip hookedLoopEnv hookedAgent "go" [] "sess-1" "2024-01-01T00:00:00Z" rfl

end Meto
